import Mathlib

/-!
Shallow embedding of the `mdf_skeleton` channel store from
`src/mdfreader/mdf.py`.

The store is a Python `dict` subclass mapping channel names to per-channel
record dicts, carrying a master-channel index (`masterChannelList`), file
metadata and scalar configuration attributes.  Python dicts are embedded as
association lists with first-match lookup, in-place update of an existing
key and append of a fresh key (matching dict insertion-order semantics).
Python exceptions (`KeyError`, `ValueError`, `TypeError`) are embedded as an
explicit error component: every fallible operation returns the store in the
state it had when the exception was raised, since in Python all mutations
performed before a raise persist.
Numeric values (the coefficients compared against the float literals
`1.0`, `0.0`, `-0.0`) are embedded as `Rat`; Python's `0.0 == -0.0` holds,
so both offsets collapse to the rational `0`.
-/

namespace Mdf


/-- Python dict lookup `l[k]` as an option: first entry with the given key. -/
def dlookup (k : String) : List (String × α) → Option α
  | [] => none
  | (k', v) :: rest => if k' = k then some v else dlookup k rest


/-- Python dict membership test `k in l`. -/
def dmem (k : String) (l : List (String × α)) : Bool :=
  (dlookup k l).isSome


/-- Python dict assignment `l[k] = v`: replaces the value at an existing key
in place, appends a fresh key at the end. -/
def dinsert (k : String) (v : α) : List (String × α) → List (String × α)
  | [] => [(k, v)]
  | (k', v') :: rest =>
      if k' = k then (k, v) :: rest else (k', v') :: dinsert k v rest


/-- Python dict deletion `l.pop(k)` (the state part): removes the first
entry with the given key. -/
def derase (k : String) : List (String × α) → List (String × α)
  | [] => []
  | (k', v') :: rest => if k' = k then rest else (k', v') :: derase k rest


/-- In-place mutation of the value stored at a key (used for
`l[k].append(x)` and `l[k].pop(f)` style statements). -/
def dmodify (k : String) (f : α → α) : List (String × α) → List (String × α)
  | [] => []
  | (k', v') :: rest =>
      if k' = k then (k', f v') :: rest else (k', v') :: dmodify k f rest


/-- The keys of a dict, in insertion order. -/
def dkeys (l : List (String × α)) : List String :=
  l.map Prod.fst


/-- Parameter values stored inside a conversion `parameters` dict: named
numeric coefficients for the legacy (mdf3) schema, and the `cc_val` /
`cc_ref` payloads for the modern (mdf4) schema. -/
inductive PVal where
  | num : Rat → PVal
  | vals : List Rat → PVal
  | refs : List String → PVal
deriving DecidableEq


/-- Python comparison of a parameter value against a numeric literal
(`params['P2'] == 1.0`, `params['P1'] in (0.0, -0.0)`): true exactly for an
equal number, false for any non-numeric value. -/
def pvalEq (p : PVal) (q : Rat) : Bool :=
  match p with
  | .num r => r == q
  | _ => false


/-- The conversion dict attached to a channel record: built by
`add_channel` as `{'type': ..., 'parameters': {...}}`. -/
structure Conv where
  type_ : Int
  parameters : List (String × PVal)
deriving DecidableEq


/-- A value stored in a channel record dict: the record fields hold strings
(unit, description, master), integers (masterType), a data array, a
conversion dict, or an opaque attachment. -/
inductive Value where
  | str : String → Value
  | int : Int → Value
  | data : List Rat → Value
  | conv : Conv → Value
  | attach : List Rat → Value
deriving DecidableEq


/-- A channel record: the per-channel dict `self[channel_name]`. -/
abbrev Record := List (String × Value)


/-- The `info class` argument passed to `add_channel` as `conversion`: a
dict with key `cc_type` and optional keys `conversion` (legacy flat
coefficient dict), `cc_val` and `cc_ref`. -/
structure ConvSource where
  cc_type : Int
  conversion : Option (List (String × PVal))
  cc_val : Option (List Rat)
  cc_ref : Option (List String)
deriving DecidableEq


/-- Python exceptions raised by the embedded operations. -/
inductive Err where
  | keyError
  | valueError
  | typeError
deriving DecidableEq


/-- The seven-field `file_metadata` dict. -/
structure Metadata where
  author : String
  organisation : String
  project : String
  subject : String
  comment : String
  time : String
  date : String
deriving DecidableEq


/-- The `mdf_skeleton` instance: the dict of channel records plus the
attributes set in `__init__`. -/
structure Store where
  channels : List (String × Record)
  masterChannelList : List (String × List String)
  file_metadata : Metadata
  MDFVersionNumber : Int
  multiProc : Bool
  fileName : Option String
  filterChannelNames : Bool
  convert_tables : Bool
  pandasframe : Bool
deriving DecidableEq


def descriptionField : String := "description"

def unitField : String := "unit"

def dataField : String := "data"

def masterField : String := "master"

def masterTypeField : String := "masterType"

def conversionField : String := "conversion"

def attachmentField : String := "attachment"


/-- `mdf_skeleton.__init__` (the `read` call is outside this module and is
only reached when a file name is supplied; it is not modelled). -/
def initStore (fileName : Option String) (filterChannelNames : Bool) : Store :=
  { channels := []
    masterChannelList := []
    file_metadata :=
      { author := "", organisation := "", project := "", subject := ""
        comment := "", time := "", date := "" }
    MDFVersionNumber := 300
    multiProc := false
    fileName := fileName
    filterChannelNames := filterChannelNames
    convert_tables := false
    pandasframe := false }


/-- `getChannel`: the record for a name, or the Python `None` sentinel. -/
def getChannel (st : Store) (channelName : String) : Option Record :=
  dlookup channelName st.channels


/-- `_getChannelField`: the field value if record and field exist, the empty
string if the record exists but the field does not, and the Python `None`
sentinel (embedded as `none`) if the record does not exist. -/
def getChannelField (st : Store) (channelName : String) (field : String) :
    Option Value :=
  match dlookup channelName st.channels with
  | some channel =>
      match dlookup field channel with
      | some v => some v
      | none => some (Value.str "")
  | none => none


def getChannelUnit (st : Store) (channelName : String) : Option Value :=
  getChannelField st channelName unitField


def getChannelDesc (st : Store) (channelName : String) : Option Value :=
  getChannelField st channelName descriptionField


def getChannelMaster (st : Store) (channelName : String) : Option Value :=
  getChannelField st channelName masterField


def getChannelMasterType (st : Store) (channelName : String) : Option Value :=
  getChannelField st channelName masterTypeField


def getChannelConversion (st : Store) (channelName : String) : Option Value :=
  getChannelField st channelName conversionField


/-- `_setChannel`: sets one field on an existing record, raises
`KeyError('Channel not in dictionary')` otherwise (store unchanged). -/
def setChannel (st : Store) (channelName : String) (item : Value)
    (field : String) : Store × Option Err :=
  match dlookup channelName st.channels with
  | some channel =>
      ({ st with
          channels := dinsert channelName (dinsert field item channel)
            st.channels }, none)
  | none => (st, some Err.keyError)


def setChannelUnit (st : Store) (channelName : String) (unit : String) :
    Store × Option Err :=
  setChannel st channelName (Value.str unit) unitField


def setChannelData (st : Store) (channelName : String) (data : List Rat) :
    Store × Option Err :=
  setChannel st channelName (Value.data data) dataField


def setChannelDesc (st : Store) (channelName : String) (desc : String) :
    Store × Option Err :=
  setChannel st channelName (Value.str desc) descriptionField


def setChannelMaster (st : Store) (channelName : String) (master : String) :
    Store × Option Err :=
  setChannel st channelName (Value.str master) masterField


def setChannelMasterType (st : Store) (channelName : String)
    (masterType : Int) : Store × Option Err :=
  setChannel st channelName (Value.int masterType) masterTypeField


def setChannelConversion (st : Store) (channelName : String) (c : Conv) :
    Store × Option Err :=
  setChannel st channelName (Value.conv c) conversionField


def setChannelAttachment (st : Store) (channelName : String)
    (attachment : List Rat) : Store × Option Err :=
  setChannel st channelName (Value.attach attachment) attachmentField


/-- Direct record-field assignment `self[channel_name][field] = v` on a
present channel (used inside `add_channel` for the conversion dict). -/
def setRecField (st : Store) (channelName : String) (field : String)
    (v : Value) : Store :=
  { st with
      channels := dmodify channelName (fun r => dinsert field v r)
        st.channels }


/-- Direct record-field removal `self[channel_name].pop(field)` (state
part). -/
def popRecField (st : Store) (channelName : String) (field : String) :
    Store :=
  { st with
      channels := dmodify channelName (fun r => derase field r)
        st.channels }


/-- The conversion-normalization block of `add_channel` (the
`if conversion is not None:` suite), executed after the record and index
updates, on the effective (possibly suffixed) channel name.  A `KeyError`
raised by the `P2`/`P1` lookups leaves the partially-built conversion dict
attached, as in Python. -/
def applyConversion (st : Store) (channel_name : String)
    (conversion : ConvSource) : Store × Option Err :=
  if st.MDFVersionNumber < 400 then
    let params : List (String × PVal) :=
      match conversion.conversion with
      | some ps => ps
      | none => []
    let st := setRecField st channel_name conversionField
      (Value.conv { type_ := conversion.cc_type, parameters := params })
    if conversion.cc_type = 0 then
      match dlookup "P2" params with
      | none => (st, some Err.keyError)
      | some p2 =>
          if pvalEq p2 1 then
            match dlookup "P1" params with
            | none => (st, some Err.keyError)
            | some p1 =>
                if pvalEq p1 0 then
                  (popRecField st channel_name conversionField, none)
                else (st, none)
          else (st, none)
    else (st, none)
  else
    let params : List (String × PVal) := []
    let params :=
      match conversion.cc_val with
      | some v => dinsert "cc_val" (PVal.vals v) params
      | none => params
    let params :=
      match conversion.cc_ref with
      | some r => dinsert "cc_ref" (PVal.refs r) params
      | none => params
    (setRecField st channel_name conversionField
      (Value.conv { type_ := conversion.cc_type, parameters := params }),
      none)


/-- `add_channel`.  The name-collision rule renames to
`name + '_' + str(dataGroup)`; the record is then created and populated via
the field setters, the master-channel index entry is created if absent and
appended to, the master type is forced to `1` for version < 400, and the
conversion block runs last. -/
def add_channel (st : Store) (dataGroup : Int) (channel_name : String)
    (data : List Rat) (master_channel : String) (master_type : Int := 1)
    (unit : String := "") (description : String := "")
    (conversion : Option ConvSource := none) : Store × Option Err :=
  let channel_name :=
    if dmem channel_name st.channels then
      channel_name ++ "_" ++ toString dataGroup
    else channel_name
  let st := { st with channels := dinsert channel_name [] st.channels }
  let st := (setChannelData st channel_name data).1
  let st := (setChannelUnit st channel_name unit).1
  let st := (setChannelDesc st channel_name description).1
  let st := (setChannelMaster st channel_name master_channel).1
  let st :=
    if dmem master_channel st.masterChannelList then st
    else
      { st with
          masterChannelList := dinsert master_channel [] st.masterChannelList }
  let st :=
    { st with
        masterChannelList :=
          dmodify master_channel (fun l => l ++ [channel_name])
            st.masterChannelList }
  let st :=
    if st.MDFVersionNumber < 400 then
      (setChannelMasterType st channel_name 1).1
    else
      (setChannelMasterType st channel_name master_type).1
  match conversion with
  | none => (st, none)
  | some conv => applyConversion st channel_name conv


/-- `remove_channel`: removes the name from its master's index list, then
pops the record, returning it.  The index lookup uses the record's stored
`master` field; a missing channel yields the `None` sentinel as lookup key
and hence a `KeyError`, a master absent from the index a `KeyError`, and a
name absent from its master's list a `ValueError` (from `list.remove`).  In
each of those cases nothing has been mutated yet. -/
def remove_channel (st : Store) (channel_name : String) :
    Option Record × Store × Option Err :=
  match getChannelMaster st channel_name with
  | some (Value.str m) =>
      match dlookup m st.masterChannelList with
      | some lst =>
          if channel_name ∈ lst then
            let st :=
              { st with
                  masterChannelList :=
                    dinsert m (lst.erase channel_name) st.masterChannelList }
            match dlookup channel_name st.channels with
            | some rec =>
                (some rec,
                  { st with channels := derase channel_name st.channels },
                  none)
            | none => (none, st, some Err.keyError)
          else (none, st, some Err.valueError)
      | none => (none, st, some Err.keyError)
  | some _ => (none, st, some Err.keyError)
  | none => (none, st, some Err.keyError)


/-- `_remove_channel_field`: pops one field from a record.  When the channel
is absent, `getChannel` returns `None` and the Python membership test
`field in None` raises `TypeError`. -/
def remove_channel_field (st : Store) (channelName : String)
    (field : String) : Option Value × Store × Option Err :=
  match getChannel st channelName with
  | none => (none, st, some Err.typeError)
  | some channel =>
      match dlookup field channel with
      | some v => (some v, popRecField st channelName field, none)
      | none => (none, st, none)


/-- `remove_channel_conversion`. -/
def remove_channel_conversion (st : Store) (channelName : String) :
    Option Value × Store × Option Err :=
  remove_channel_field st channelName conversionField


/-- `add_metadata`: overwrites all seven metadata fields with its
arguments; every argument defaults to the empty string. -/
def add_metadata (st : Store) (author : String := "")
    (organisation : String := "") (project : String := "")
    (subject : String := "") (comment : String := "") (date : String := "")
    (time : String := "") : Store :=
  { st with
      file_metadata :=
        { author := author, organisation := organisation, project := project
          subject := subject, comment := comment, date := date
          time := time } }


/-- `copy`: builds a fresh default store, then overrides `multiProc`,
`fileName`, `masterChannelList`, `file_metadata`, `MDFVersionNumber`,
`filterChannelNames`, `convert_tables` and every channel entry from the
source.  `_pandasframe` is not copied and keeps the fresh default `False`. -/
def copy (st : Store) : Store :=
  let yop := initStore none false
  { yop with
      multiProc := st.multiProc
      fileName := st.fileName
      masterChannelList := st.masterChannelList
      file_metadata := st.file_metadata
      MDFVersionNumber := st.MDFVersionNumber
      filterChannelNames := st.filterChannelNames
      convert_tables := st.convert_tables
      channels := st.channels }


/-- The effective key under which `add_channel` registers the new record:
the requested name, or the `_<dataGroup>`-suffixed name on collision. -/
def effName (st : Store) (dataGroup : Int) (channel_name : String) : String :=
  if dmem channel_name st.channels then
    channel_name ++ "_" ++ toString dataGroup
  else channel_name


/-- The record contents written by the five field setters inside
`add_channel`, before the conversion block. -/
def baseRecord (version : Int) (data : List Rat) (master_channel : String)
    (master_type : Int) (unit description : String) : Record :=
  [(dataField, Value.data data), (unitField, Value.str unit),
   (descriptionField, Value.str description),
   (masterField, Value.str master_channel),
   (masterTypeField, Value.int (if version < 400 then 1 else master_type))]


/-- The flat coefficient dict used by the legacy conversion branch
(`conversion['conversion']`, or the fresh empty dict when that key is
absent). -/
def legacyParams (c : ConvSource) : List (String × PVal) :=
  match c.conversion with
  | some ps => ps
  | none => []


/-- The parameters dict built by the modern conversion branch. -/
def modernParams (c : ConvSource) : List (String × PVal) :=
  let params : List (String × PVal) := []
  let params :=
    match c.cc_val with
    | some v => dinsert "cc_val" (PVal.vals v) params
    | none => params
  match c.cc_ref with
  | some r => dinsert "cc_ref" (PVal.refs r) params
  | none => params


/-- What the conversion block leaves of a record that had no conversion
field: either the record alone (identity elision) or the record with the
normalized conversion dict appended. -/
def convRecord (version : Int) (r : Record) (c : ConvSource) : Record :=
  if version < 400 then
    let params := legacyParams c
    let withConv :=
      r ++ [(conversionField,
        Value.conv { type_ := c.cc_type, parameters := params })]
    if c.cc_type = 0 then
      match dlookup "P2" params with
      | none => withConv
      | some p2 =>
          if pvalEq p2 1 then
            match dlookup "P1" params with
            | none => withConv
            | some p1 => if pvalEq p1 0 then r else withConv
          else withConv
    else withConv
  else
    r ++ [(conversionField,
      Value.conv { type_ := c.cc_type, parameters := modernParams c })]


/-- The record `add_channel` leaves under the effective key. -/
def addRecord (version : Int) (data : List Rat) (master_channel : String)
    (master_type : Int) (unit description : String)
    (conversion : Option ConvSource) : Record :=
  match conversion with
  | none => baseRecord version data master_channel master_type unit description
  | some c =>
      convRecord version
        (baseRecord version data master_channel master_type unit description) c


/-- The error outcome of `add_channel`: a `KeyError` exactly when the
legacy identity check looks up a missing `P2` (or, when `P2 == 1.0`, a
missing `P1`). -/
def addErr (version : Int) (conversion : Option ConvSource) : Option Err :=
  match conversion with
  | none => none
  | some c =>
      if version < 400 then
        if c.cc_type = 0 then
          match dlookup "P2" (legacyParams c) with
          | none => some Err.keyError
          | some p2 =>
              if pvalEq p2 1 then
                match dlookup "P1" (legacyParams c) with
                | none => some Err.keyError
                | some _ => none
              else none
        else none
      else none


/-- The master-channel index after `add_channel` appends the effective name
to the master's list (creating the entry when absent). -/
def indexAfterAdd (idx : List (String × List String))
    (master_channel x : String) : List (String × List String) :=
  if dmem master_channel idx then
    dmodify master_channel (fun l => l ++ [x]) idx
  else idx ++ [(master_channel, [x])]


/-- The store state reached by `add_channel` just before the conversion
block. -/
def addedBase (st : Store) (g : Int) (n : String) (d : List Rat) (m : String)
    (mt : Int) (u ds : String) : Store :=
  { st with
      channels := dinsert (effName st g n)
        (baseRecord st.MDFVersionNumber d m mt u ds) st.channels
      masterChannelList := indexAfterAdd st.masterChannelList m (effName st g n) }



/-! ### The master-channel index as a multiset of member names -/

/-- All channel names listed in the master-channel index, concatenated. -/
def indexMembers (idx : List (String × List String)) : List String :=
  (idx.map Prod.snd).flatten


/-! ### Reachable states and the index/record invariant -/

/-- The store's key list (the dict keys of the `mdf_skeleton` itself). -/
def channelKeys (st : Store) : List String :=
  dkeys st.channels


/-- The index/record consistency invariant: the multiset of channel names
across all master-channel index lists equals the store's key set (each key
once, no orphans). -/
def Inv (st : Store) : Prop :=
  (indexMembers st.masterChannelList : Multiset String) =
      (channelKeys st : Multiset String) ∧
    (channelKeys st).Nodup


/-- One public mutation call on the store. -/
inductive Op where
  | addCh (dataGroup : Int) (channel_name : String) (data : List Rat)
      (master_channel : String) (master_type : Int) (unit : String)
      (description : String) (conversion : Option ConvSource)
  | removeCh (channel_name : String)
  | removeConv (channelName : String)
  | setUnit (channelName unit : String)
  | setData (channelName : String) (data : List Rat)
  | setDesc (channelName desc : String)
  | setMaster (channelName master : String)
  | setMasterType (channelName : String) (masterType : Int)
  | setConv (channelName : String) (c : Conv)
  | setAttach (channelName : String) (a : List Rat)
  | addMeta (author organisation project subject comment date time : String)
deriving DecidableEq


/-- Executing one call: the store state after the call, whether or not the
call raised (a raising call leaves exactly the mutations it performed
before the raise, as in Python). -/
def step (st : Store) : Op → Store
  | .addCh g n d m mt u ds cv => (add_channel st g n d m mt u ds cv).1
  | .removeCh n => (remove_channel st n).2.1
  | .removeConv n => (remove_channel_conversion st n).2.1
  | .setUnit n u => (setChannelUnit st n u).1
  | .setData n d => (setChannelData st n d).1
  | .setDesc n d => (setChannelDesc st n d).1
  | .setMaster n m => (setChannelMaster st n m).1
  | .setMasterType n t => (setChannelMasterType st n t).1
  | .setConv n c => (setChannelConversion st n c).1
  | .setAttach n a => (setChannelAttachment st n a).1
  | .addMeta a o p s c dt t => add_metadata st a o p s c dt t


def run (st : Store) : List Op → Store
  | [] => st
  | op :: ops => run (step st op) ops


/-- Side condition under which an `add_channel` call is collision-safe: the
effective (possibly suffixed) key is not already a store key.  All other
calls are unconditionally safe. -/
def addOk (st : Store) : Op → Bool
  | .addCh g n _ _ _ _ _ _ => !dmem (effName st g n) st.channels
  | _ => true


def okTrace (st : Store) : List Op → Bool
  | [] => true
  | op :: ops => addOk st op && okTrace (step st op) ops


/-! ### Association-list (Python dict) lemmas -/

/-- A fresh store whose version number an external reader has set to `v`
(the constructor itself always starts at 300; the attribute is plain
read/write state). -/
def initV (v : Int) : Store :=
  { initStore none false with MDFVersionNumber := v }

instance (st : Store) : Decidable (Inv st) :=
  inferInstanceAs (Decidable
    ((indexMembers st.masterChannelList : Multiset String) =
        (channelKeys st : Multiset String) ∧ (channelKeys st).Nodup))

/-- An `add_channel` call for channel `T` under master `Time`. -/
def opAddT : Op :=
  Op.addCh 0 "T" [] "Time" 1 "" "" none

/-- The same call with a different unit string, making overwrites of an
existing record observable. -/
def opAddTx : Op :=
  Op.addCh 0 "T" [] "Time" 1 "x" "" none

/-- A type-0 legacy conversion source carrying a non-identity `P2` and no
`P1` at all. -/
def convNoP1 : ConvSource :=
  { cc_type := 0, conversion := some [("P2", PVal.num 2)]
    cc_val := none, cc_ref := none }

/-- A type-0 legacy conversion source with `P2 == 1.0` but no `P1`. -/
def convP2OneNoP1 : ConvSource :=
  { cc_type := 0, conversion := some [("P2", PVal.num 1)]
    cc_val := none, cc_ref := none }

/-- The identity linear conversion: type `0`, `P2 = 1.0`, `P1 = 0.0`. -/
def convIdentity : ConvSource :=
  { cc_type := 0, conversion := some [("P2", PVal.num 1), ("P1", PVal.num 0)]
    cc_val := none, cc_ref := none }

/-- A store on which the tabular-rendering flag has been switched on. -/
def pandasStore : Store :=
  { initStore none false with pandasframe := true }

/-- A store holding one channel `C` whose record carries only a conversion
dict. -/
def convOnlyStore : Store :=
  { initStore none false with
      channels :=
        [("C", [(conversionField, Value.conv { type_ := 1, parameters := [] })])] }

@[simp]
theorem dlookup_nil (k : String) : dlookup k ([] : List (String × α)) = none :=
  rfl


@[simp]
theorem dlookup_dinsert_self (k : String) (v : α) (l : List (String × α)) :
    dlookup k (dinsert k v l) = some v := by
  induction l with
  | nil => simp [dinsert, dlookup]
  | cons hd tl ih =>
      by_cases h : hd.1 = k <;> simp [dinsert, dlookup, h, ih]


theorem dlookup_dinsert_ne {k k₀ : String} (v : α) (l : List (String × α))
    (h : k ≠ k₀) : dlookup k (dinsert k₀ v l) = dlookup k l := by
  induction l with
  | nil => simp [dinsert, dlookup, Ne.symm h]
  | cons hd tl ih =>
      by_cases h' : hd.1 = k₀
      · simp [dinsert, dlookup, h', Ne.symm h]
      · by_cases h'' : hd.1 = k <;>
          simp [dinsert, dlookup, h', h'', h, Ne.symm h, ih]


@[simp]
theorem dkeys_nil : dkeys ([] : List (String × α)) = [] :=
  rfl


@[simp]
theorem dkeys_cons (hd : String × α) (tl : List (String × α)) :
    dkeys (hd :: tl) = hd.1 :: dkeys tl :=
  rfl


theorem dlookup_isSome {k : String} {l : List (String × α)} :
    (dlookup k l).isSome = true ↔ k ∈ dkeys l := by
  induction l with
  | nil => simp [dlookup, dkeys]
  | cons hd tl ih =>
      by_cases h : hd.1 = k
      · subst h; simp [dlookup, dkeys]
      · simp [dlookup, dkeys, h, Ne.symm h, ih]


theorem dmem_iff {k : String} {l : List (String × α)} :
    dmem k l = true ↔ k ∈ dkeys l := by
  rw [dmem, dlookup_isSome]


theorem dmem_false_iff {k : String} {l : List (String × α)} :
    dmem k l = false ↔ k ∉ dkeys l := by
  rw [← dmem_iff]
  cases h : dmem k l <;> simp [h]


theorem dlookup_eq_none_iff {k : String} {l : List (String × α)} :
    dlookup k l = none ↔ k ∉ dkeys l := by
  rw [← dlookup_isSome]
  cases h : dlookup k l <;> simp [h]


theorem dkeys_dinsert_of_mem {k : String} (v : α) {l : List (String × α)}
    (h : k ∈ dkeys l) : dkeys (dinsert k v l) = dkeys l := by
  induction l with
  | nil => simp at h
  | cons hd tl ih =>
      by_cases h' : hd.1 = k
      · simp [dinsert, h']
      · rw [dkeys_cons, List.mem_cons] at h
        rcases h with h | h
        · exact absurd h.symm h'
        · simp [dinsert, h', ih h]


theorem dkeys_dinsert_of_not_mem {k : String} (v : α) {l : List (String × α)}
    (h : k ∉ dkeys l) : dkeys (dinsert k v l) = dkeys l ++ [k] := by
  induction l with
  | nil => simp [dinsert]
  | cons hd tl ih =>
      rw [dkeys_cons, List.mem_cons] at h
      push_neg at h
      by_cases h' : hd.1 = k
      · exact absurd h'.symm h.1
      · simp [dinsert, h', ih h.2]


@[simp]
theorem dkeys_dmodify (k : String) (f : α → α) (l : List (String × α)) :
    dkeys (dmodify k f l) = dkeys l := by
  induction l with
  | nil => rfl
  | cons hd tl ih =>
      by_cases h : hd.1 = k <;> simp [dmodify, h, ih]


theorem dkeys_derase (k : String) (l : List (String × α)) :
    dkeys (derase k l) = (dkeys l).erase k := by
  induction l with
  | nil => rfl
  | cons hd tl ih =>
      by_cases h : hd.1 = k
      · simp [derase, h, List.erase_cons]
      · simp [derase, h, List.erase_cons, ih]


@[simp]
theorem dinsert_dinsert (k : String) (v w : α) (l : List (String × α)) :
    dinsert k v (dinsert k w l) = dinsert k v l := by
  induction l with
  | nil => simp [dinsert]
  | cons hd tl ih =>
      by_cases h : hd.1 = k <;> simp [dinsert, h, ih]


@[simp]
theorem dmodify_dinsert (k : String) (f : α → α) (v : α)
    (l : List (String × α)) :
    dmodify k f (dinsert k v l) = dinsert k (f v) l := by
  induction l with
  | nil => simp [dinsert, dmodify]
  | cons hd tl ih =>
      by_cases h : hd.1 = k <;> simp [dinsert, dmodify, h, ih]


theorem dlookup_dmodify_self (k : String) (f : α → α)
    (l : List (String × α)) :
    dlookup k (dmodify k f l) = (dlookup k l).map f := by
  induction l with
  | nil => rfl
  | cons hd tl ih =>
      by_cases h : hd.1 = k <;> simp [dmodify, dlookup, h, ih]


theorem dlookup_dmodify_ne {k k₀ : String} (f : α → α)
    (l : List (String × α)) (h : k ≠ k₀) :
    dlookup k (dmodify k₀ f l) = dlookup k l := by
  induction l with
  | nil => rfl
  | cons hd tl ih =>
      by_cases h' : hd.1 = k₀
      · simp [dmodify, dlookup, h', Ne.symm h]
      · by_cases h'' : hd.1 = k <;> simp [dmodify, dlookup, h', h'', h, ih]


theorem dlookup_derase_ne {k k₀ : String} (l : List (String × α))
    (h : k ≠ k₀) : dlookup k (derase k₀ l) = dlookup k l := by
  induction l with
  | nil => rfl
  | cons hd tl ih =>
      by_cases h' : hd.1 = k₀
      · simp [derase, dlookup, h', Ne.symm h]
      · by_cases h'' : hd.1 = k <;> simp [derase, dlookup, h', h'', h, ih]


theorem dlookup_derase_self_of_nodup {k : String} {l : List (String × α)}
    (h : (dkeys l).Nodup) : dlookup k (derase k l) = none := by
  induction l with
  | nil => rfl
  | cons hd tl ih =>
      rw [dkeys_cons, List.nodup_cons] at h
      by_cases h' : hd.1 = k
      · subst h'
        rw [show derase hd.1 (hd :: tl) = tl by simp [derase]]
        exact dlookup_eq_none_iff.2 h.1
      · simp [derase, dlookup, h', ih h.2]


/-! ### Characterization of add_channel -/

theorem dinsert_eq_append_of_not_mem {k : String} (v : α)
    {l : List (String × α)} (h : k ∉ dkeys l) :
    dinsert k v l = l ++ [(k, v)] := by
  induction l with
  | nil => simp [dinsert]
  | cons hd tl ih =>
      rw [dkeys_cons, List.mem_cons] at h
      push_neg at h
      have hne : ¬hd.1 = k := fun hh => h.1 hh.symm
      simp [dinsert, hne, ih h.2]


theorem derase_dinsert_of_not_mem {k : String} (v : α)
    {l : List (String × α)} (h : k ∉ dkeys l) :
    derase k (dinsert k v l) = l := by
  induction l with
  | nil => simp [dinsert, derase]
  | cons hd tl ih =>
      rw [dkeys_cons, List.mem_cons] at h
      push_neg at h
      have hne : ¬hd.1 = k := fun hh => h.1 hh.symm
      simp [dinsert, derase, hne, ih h.2]


theorem dinsert_append_of_not_dmem {k : String} (v : α)
    {l : List (String × α)} (h : dmem k l = false) :
    dinsert k v l = l ++ [(k, v)] :=
  dinsert_eq_append_of_not_mem v (dmem_false_iff.1 h)


theorem dmodify_append_of_not_mem {k : String} (f : α → α) (v : α)
    {l : List (String × α)} (h : k ∉ dkeys l) :
    dmodify k f (l ++ [(k, v)]) = l ++ [(k, f v)] := by
  induction l with
  | nil => simp [dmodify]
  | cons hd tl ih =>
      rw [dkeys_cons, List.mem_cons] at h
      push_neg at h
      have hne : ¬hd.1 = k := fun hh => h.1 hh.symm
      simp [dmodify, hne, ih h.2]


theorem dmodify_append_self {k : String} (f : α → α) (v : α)
    {l : List (String × α)} (h : dmem k l = false) :
    dmodify k f (l ++ [(k, v)]) = l ++ [(k, f v)] :=
  dmodify_append_of_not_mem f v (dmem_false_iff.1 h)


set_option maxHeartbeats 1000000 in
theorem add_channel_split (st : Store) (g : Int) (n : String) (d : List Rat)
    (m : String) (mt : Int) (u ds : String) (cv : Option ConvSource) :
    add_channel st g n d m mt u ds cv =
      match cv with
      | none => (addedBase st g n d m mt u ds, none)
      | some c => applyConversion (addedBase st g n d m mt u ds) (effName st g n) c := by
  rcases cv with _ | c <;>
    by_cases hM : dmem m st.masterChannelList <;>
    by_cases hV : st.MDFVersionNumber < 400 <;>
    simp only [add_channel, addedBase, baseRecord, effName, indexAfterAdd,
      setChannelData, setChannelUnit, setChannelDesc, setChannelMaster,
      setChannelMasterType, setChannel, hM, hV,
      dlookup_dinsert_self, dinsert_dinsert,
      if_true, if_false, ite_true, ite_false] <;>
    simp [dataField, unitField, descriptionField, masterField,
      masterTypeField, dinsert, dinsert_append_of_not_dmem,
      dmodify_append_self, hM, hV]



theorem applyConversion_eq (st : Store) (cn : String) (c : ConvSource)
    (r : Record) (hr : conversionField ∉ dkeys r) :
    applyConversion { st with channels := dinsert cn r st.channels } cn c =
      ({ st with
          channels := dinsert cn (convRecord st.MDFVersionNumber r c)
            st.channels },
        addErr st.MDFVersionNumber (some c)) := by
  obtain ⟨ct, cc, cval, cref⟩ := c
  have happ : ∀ v : Value, dinsert conversionField v r = r ++ [(conversionField, v)] :=
    fun v => dinsert_eq_append_of_not_mem v hr
  have herase : ∀ v : Value, derase conversionField (dinsert conversionField v r) = r :=
    fun v => derase_dinsert_of_not_mem v hr
  have herase2 : ∀ v : Value, derase conversionField (r ++ [(conversionField, v)]) = r := by
    intro v
    rw [← happ v]
    exact herase v
  by_cases hV : st.MDFVersionNumber < 400
  · rcases cc with _ | ps
    · by_cases hT : ct = 0 <;>
        simp [applyConversion, convRecord, addErr, legacyParams,
          setRecField, popRecField, hV, hT, happ, herase, herase2, dlookup]
    · by_cases hT : ct = 0
      · rcases hP2 : dlookup "P2" ps with _ | p2
        · simp [applyConversion, convRecord, addErr, legacyParams,
            setRecField, popRecField, hV, hT, hP2, happ, herase, herase2]
        · by_cases hp2 : pvalEq p2 1
          · rcases hP1 : dlookup "P1" ps with _ | p1
            · simp [applyConversion, convRecord, addErr, legacyParams,
                setRecField, popRecField, hV, hT, hP2, hp2, hP1, happ,
                herase, herase2]
            · by_cases hp1 : pvalEq p1 0 <;>
                simp [applyConversion, convRecord, addErr, legacyParams,
                  setRecField, popRecField, hV, hT, hP2, hp2, hP1, hp1,
                  happ, herase, herase2]
          · simp [applyConversion, convRecord, addErr, legacyParams,
              setRecField, popRecField, hV, hT, hP2, hp2, happ, herase,
              herase2]
      · simp [applyConversion, convRecord, addErr, legacyParams,
          setRecField, popRecField, hV, hT, happ, herase, herase2]
  · simp [applyConversion, convRecord, addErr, modernParams,
      setRecField, popRecField, hV, happ, herase, herase2]


theorem add_channel_eq (st : Store) (g : Int) (n : String) (d : List Rat)
    (m : String) (mt : Int) (u ds : String) (cv : Option ConvSource) :
    add_channel st g n d m mt u ds cv =
      ({ st with
          channels := dinsert (effName st g n)
            (addRecord st.MDFVersionNumber d m mt u ds cv) st.channels
          masterChannelList :=
            indexAfterAdd st.masterChannelList m (effName st g n) },
        addErr st.MDFVersionNumber cv) := by
  rw [add_channel_split]
  rcases cv with _ | c
  · simp [addedBase, addRecord, addErr]
  · have hbase : conversionField ∉ dkeys (baseRecord st.MDFVersionNumber d m mt u ds) := by
      simp [baseRecord, conversionField, dataField, unitField,
        descriptionField, masterField, masterTypeField]
    have h :=
      applyConversion_eq
        { st with
            masterChannelList :=
              indexAfterAdd st.masterChannelList m (effName st g n) }
        (effName st g n) c (baseRecord st.MDFVersionNumber d m mt u ds) hbase
    simpa [addedBase, addRecord] using h



@[simp]
theorem indexMembers_nil : indexMembers [] = [] :=
  rfl


@[simp]
theorem indexMembers_cons (hd : String × List String)
    (tl : List (String × List String)) :
    indexMembers (hd :: tl) = hd.2 ++ indexMembers tl :=
  rfl


theorem indexMembers_append (a b : List (String × List String)) :
    indexMembers (a ++ b) = indexMembers a ++ indexMembers b := by
  induction a with
  | nil => simp
  | cons hd tl ih => simp [ih]


theorem coe_members_dmodify_append {m : String} (x : String)
    {idx : List (String × List String)} (h : m ∈ dkeys idx) :
    (indexMembers (dmodify m (fun l => l ++ [x]) idx) : Multiset String) =
      (indexMembers idx : Multiset String) + {x} := by
  induction idx with
  | nil => simp at h
  | cons hd tl ih =>
      rw [dkeys_cons, List.mem_cons] at h
      by_cases h' : hd.1 = m
      · simp only [dmodify, h', if_true, ite_true, indexMembers_cons]
        rw [← Multiset.coe_add, ← Multiset.coe_add, ← Multiset.coe_add]
        simp only [Multiset.coe_singleton]
        abel
      · rcases h with h | h
        · exact absurd h.symm h'
        · simp only [dmodify, h', if_false, ite_false, indexMembers_cons]
          rw [← Multiset.coe_add, ← Multiset.coe_add, ih h]
          abel


theorem coe_members_dinsert {m : String} {idx : List (String × List String)}
    {lst : List String} (l' : List String)
    (h : dlookup m idx = some lst) :
    (indexMembers (dinsert m l' idx) : Multiset String) +
        (lst : Multiset String) =
      (indexMembers idx : Multiset String) + (l' : Multiset String) := by
  induction idx with
  | nil => simp [dlookup] at h
  | cons hd tl ih =>
      by_cases h' : hd.1 = m
      · rw [show dlookup m (hd :: tl) = some hd.2 by simp [dlookup, h']] at h
        injection h with h
        subst h
        simp only [dinsert, h', if_true, ite_true, indexMembers_cons]
        rw [← Multiset.coe_add, ← Multiset.coe_add]
        abel
      · rw [show dlookup m (hd :: tl) = dlookup m tl by simp [dlookup, h']] at h
        simp only [dinsert, h', if_false, ite_false, indexMembers_cons]
        rw [← Multiset.coe_add, ← Multiset.coe_add]
        rw [add_assoc, ih h]
        abel


theorem mem_members_of_dlookup {m x : String}
    {idx : List (String × List String)} {lst : List String}
    (h : dlookup m idx = some lst) (hx : x ∈ lst) : x ∈ indexMembers idx := by
  induction idx with
  | nil => simp [dlookup] at h
  | cons hd tl ih =>
      by_cases h' : hd.1 = m
      · rw [show dlookup m (hd :: tl) = some hd.2 by simp [dlookup, h']] at h
        injection h with h
        subst h
        simp [hx]
      · rw [show dlookup m (hd :: tl) = dlookup m tl by simp [dlookup, h']] at h
        simp [ih h]



theorem channelKeys_setChannel (st : Store) (cn : String) (v : Value)
    (f : String) : channelKeys (setChannel st cn v f).1 = channelKeys st := by
  unfold setChannel
  rcases h : dlookup cn st.channels with _ | r
  · simp
  · simp only [channelKeys]
    exact dkeys_dinsert_of_mem _ (dlookup_isSome.1 (by simp [h]))


theorem masterChannelList_setChannel (st : Store) (cn : String) (v : Value)
    (f : String) :
    (setChannel st cn v f).1.masterChannelList = st.masterChannelList := by
  unfold setChannel
  rcases h : dlookup cn st.channels with _ | r <;> simp


theorem inv_setChannel {st : Store} (hinv : Inv st) (cn : String) (v : Value)
    (f : String) : Inv (setChannel st cn v f).1 := by
  rcases hinv with ⟨h1, h2⟩
  constructor
  · rw [masterChannelList_setChannel, channelKeys_setChannel]
    exact h1
  · rw [channelKeys_setChannel]
    exact h2


theorem inv_add {st : Store} (hinv : Inv st) (g : Int) (n : String)
    (d : List Rat) (m : String) (mt : Int) (u ds : String)
    (cv : Option ConvSource)
    (hok : dmem (effName st g n) st.channels = false) :
    Inv (add_channel st g n d m mt u ds cv).1 := by
  rcases hinv with ⟨h1, h2⟩
  rw [add_channel_eq]
  have hkeys : channelKeys
      ({ st with
          channels := dinsert (effName st g n)
            (addRecord st.MDFVersionNumber d m mt u ds cv) st.channels
          masterChannelList :=
            indexAfterAdd st.masterChannelList m (effName st g n) }) =
      channelKeys st ++ [effName st g n] := by
    simpa [channelKeys] using
      dkeys_dinsert_of_not_mem
        (addRecord st.MDFVersionNumber d m mt u ds cv)
        (dmem_false_iff.1 hok)
  have hmem : (indexMembers (indexAfterAdd st.masterChannelList m
      (effName st g n)) : Multiset String) =
      (indexMembers st.masterChannelList : Multiset String) +
        {effName st g n} := by
    unfold indexAfterAdd
    by_cases hM : dmem m st.masterChannelList
    · simp only [hM, if_true, ite_true]
      exact coe_members_dmodify_append _ (dmem_iff.1 hM)
    · simp only [hM, if_false, ite_false, Bool.false_eq_true,
        indexMembers_append]
      rw [← Multiset.coe_add]
      simp
  constructor
  · rw [hkeys, hmem, h1, ← Multiset.coe_singleton, Multiset.coe_add]
  · rw [hkeys]
    rw [List.nodup_append]
    refine ⟨h2, List.nodup_singleton _, ?_⟩
    intro a ha hb
    rcases List.mem_singleton.1 hb with rfl
    exact absurd ha (dmem_false_iff.1 hok)



theorem inv_remove {st : Store} (hinv : Inv st) (cn : String) :
    Inv (remove_channel st cn).2.1 := by
  rcases h1 : getChannelMaster st cn with _ | v
  · simp [remove_channel, h1, hinv]
  · rcases v with s | i | d | c | a
    case str =>
      rcases h2 : dlookup s st.masterChannelList with _ | lst
      · simp [remove_channel, h1, h2, hinv]
      · by_cases h3 : cn ∈ lst
        · have hmem : cn ∈ indexMembers st.masterChannelList :=
            mem_members_of_dlookup h2 h3
          have hkey : cn ∈ channelKeys st := by
            have : cn ∈ (indexMembers st.masterChannelList : Multiset String) := by
              exact_mod_cast hmem
            rw [hinv.1] at this
            exact_mod_cast this
          rcases Option.isSome_iff_exists.1
              ((dlookup_isSome (l := st.channels)).2 hkey) with ⟨r, h4⟩
          simp only [remove_channel, h1, h2, h3, h4, if_true, ite_true]
          constructor
          · have hd : (indexMembers (dinsert s (lst.erase cn)
                st.masterChannelList) : Multiset String) +
                (lst : Multiset String) =
                (indexMembers st.masterChannelList : Multiset String) +
                  (lst.erase cn : List String) :=
              coe_members_dinsert (lst.erase cn) h2
            have hlst : (lst : Multiset String) =
                {cn} + ((lst.erase cn : List String) : Multiset String) := by
              rw [← Multiset.coe_erase, Multiset.singleton_add,
                Multiset.cons_erase (by exact_mod_cast h3)]
            have hkeys : (channelKeys st : Multiset String) =
                {cn} + ((channelKeys st).erase cn : Multiset String) := by
              rw [← Multiset.coe_erase, Multiset.singleton_add,
                Multiset.cons_erase (by exact_mod_cast hkey)]
            have hgoalkeys : channelKeys
                { st with
                    masterChannelList := dinsert s (lst.erase cn) st.masterChannelList
                    channels := derase cn st.channels } =
                (channelKeys st).erase cn := by
              simp [channelKeys, dkeys_derase]
            rw [hgoalkeys]
            have := hd
            rw [hlst, hinv.1, hkeys] at this
            have h5 : (indexMembers (dinsert s (lst.erase cn)
                st.masterChannelList) : Multiset String) + {cn} +
                ((lst.erase cn : List String) : Multiset String) =
                (((channelKeys st).erase cn : Multiset String) + {cn}) +
                ((lst.erase cn : List String) : Multiset String) := by
              calc (indexMembers (dinsert s (lst.erase cn)
                  st.masterChannelList) : Multiset String) + {cn} +
                  ((lst.erase cn : List String) : Multiset String)
                  = (indexMembers (dinsert s (lst.erase cn)
                      st.masterChannelList) : Multiset String) +
                    ({cn} + ((lst.erase cn : List String) : Multiset String)) := by
                    abel
                _ = {cn} + ((channelKeys st).erase cn : Multiset String) +
                    ((lst.erase cn : List String) : Multiset String) := this
                _ = (((channelKeys st).erase cn : Multiset String) + {cn}) +
                    ((lst.erase cn : List String) : Multiset String) := by
                    abel
            have h6 := add_right_cancel h5
            exact add_right_cancel h6
          · have : channelKeys
                { st with
                    masterChannelList := dinsert s (lst.erase cn) st.masterChannelList
                    channels := derase cn st.channels } =
                (channelKeys st).erase cn := by
              simp [channelKeys, dkeys_derase]
            rw [this]
            exact (List.erase_sublist cn (channelKeys st)).nodup hinv.2
        · simp [remove_channel, h1, h2, h3, hinv]
    all_goals simp [remove_channel, h1, hinv]


theorem inv_remove_field {st : Store} (hinv : Inv st) (cn f : String) :
    Inv (remove_channel_field st cn f).2.1 := by
  rcases h1 : getChannel st cn with _ | r
  · simp [remove_channel_field, h1, hinv]
  · rcases h2 : dlookup f r with _ | v
    · simp [remove_channel_field, h1, h2, hinv]
    · simp only [remove_channel_field, h1, h2]
      rcases hinv with ⟨ha, hb⟩
      exact ⟨by simpa [popRecField, channelKeys] using ha,
        by simpa [popRecField, channelKeys] using hb⟩


theorem inv_step {st : Store} (op : Op) (hinv : Inv st)
    (hok : addOk st op = true) : Inv (step st op) := by
  cases op with
  | addCh g n d m mt u ds cv =>
      have : dmem (effName st g n) st.channels = false := by
        simpa [addOk] using hok
      exact inv_add hinv g n d m mt u ds cv this
  | removeCh n => exact inv_remove hinv n
  | removeConv n => exact inv_remove_field hinv n conversionField
  | setUnit n u => exact inv_setChannel hinv n (Value.str u) unitField
  | setData n d => exact inv_setChannel hinv n (Value.data d) dataField
  | setDesc n d => exact inv_setChannel hinv n (Value.str d) descriptionField
  | setMaster n m => exact inv_setChannel hinv n (Value.str m) masterField
  | setMasterType n t => exact inv_setChannel hinv n (Value.int t) masterTypeField
  | setConv n c => exact inv_setChannel hinv n (Value.conv c) conversionField
  | setAttach n a => exact inv_setChannel hinv n (Value.attach a) attachmentField
  | addMeta a o p s c dt t => exact hinv


theorem inv_run {ops : List Op} {st : Store} (hinv : Inv st)
    (hok : okTrace st ops = true) : Inv (run st ops) := by
  induction ops generalizing st with
  | nil => exact hinv
  | cons op ops ih =>
      rcases Bool.and_eq_true_iff.1 (by simpa [okTrace] using hok) with ⟨ho, ht⟩
      exact ih (inv_step op hinv ho) ht



/-! ### Supporting lemmas for the claims -/

theorem dlookup_append_left {k : String} {l₁ l₂ : List (String × α)} {v : α}
    (h : dlookup k l₁ = some v) : dlookup k (l₁ ++ l₂) = some v := by
  induction l₁ with
  | nil => simp [dlookup] at h
  | cons hd tl ih =>
      by_cases h' : hd.1 = k
      · rw [show dlookup k (hd :: tl) = some hd.2 by simp [dlookup, h']] at h
        simp [dlookup, h', h]
      · rw [show dlookup k (hd :: tl) = dlookup k tl by simp [dlookup, h']] at h
        simp [dlookup, h', ih h]

theorem dlookup_baseRecord_masterType (v : Int) (d : List Rat) (m : String)
    (mt : Int) (u ds : String) :
    dlookup masterTypeField (baseRecord v d m mt u ds) =
      some (Value.int (if v < 400 then 1 else mt)) := by
  simp [baseRecord, dlookup, masterTypeField, dataField, unitField,
    descriptionField, masterField]

theorem dlookup_baseRecord_conversion (v : Int) (d : List Rat) (m : String)
    (mt : Int) (u ds : String) :
    dlookup conversionField (baseRecord v d m mt u ds) = none := by
  simp [baseRecord, dlookup, masterTypeField, dataField, unitField,
    descriptionField, masterField, conversionField]

theorem dlookup_addRecord_masterType (v : Int) (d : List Rat) (m : String)
    (mt : Int) (u ds : String) (cv : Option ConvSource) :
    dlookup masterTypeField (addRecord v d m mt u ds cv) =
      some (Value.int (if v < 400 then 1 else mt)) := by
  rcases cv with _ | c
  · exact dlookup_baseRecord_masterType v d m mt u ds
  · unfold addRecord convRecord
    by_cases hv : v < 400
    · have hbase : dlookup masterTypeField (baseRecord v d m mt u ds) =
          some (Value.int (if v < 400 then 1 else mt)) :=
        dlookup_baseRecord_masterType v d m mt u ds
      rw [if_pos hv] at hbase
      simp only [hv, ite_true, if_true]
      repeat' split
      all_goals first
        | exact hbase
        | exact dlookup_append_left hbase
    · have hbase : dlookup masterTypeField (baseRecord v d m mt u ds) =
          some (Value.int (if v < 400 then 1 else mt)) :=
        dlookup_baseRecord_masterType v d m mt u ds
      rw [if_neg hv] at hbase
      simp only [hv, ite_false, if_false]
      exact dlookup_append_left hbase

theorem addRecord_identity {v : Int} {c : ConvSource}
    {ps : List (String × PVal)} (hv : v < 400) (ht : c.cc_type = 0)
    (hcc : c.conversion = some ps)
    (hp2 : dlookup "P2" ps = some (PVal.num 1))
    (hp1 : dlookup "P1" ps = some (PVal.num 0)) (d : List Rat) (m : String)
    (mt : Int) (u ds : String) :
    addRecord v d m mt u ds (some c) = baseRecord v d m mt u ds := by
  simp [addRecord, convRecord, legacyParams, hcc, hv, ht, hp2, hp1, pvalEq]

theorem addErr_identity {v : Int} {c : ConvSource} {ps : List (String × PVal)}
    (hv : v < 400) (ht : c.cc_type = 0) (hcc : c.conversion = some ps)
    (hp2 : dlookup "P2" ps = some (PVal.num 1))
    (hp1 : dlookup "P1" ps = some (PVal.num 0)) :
    addErr v (some c) = none := by
  simp [addErr, legacyParams, hcc, hv, ht, hp2, hp1, pvalEq]

/-! ### Claims -/

/-- C1 (corrected): for every reachable store state whose `add_channel`
calls are collision-safe (the effective, possibly `_<groupId>`-suffixed,
key is always fresh), the multiset of channel names across all
Master-Channel Index lists equals the store's key set exactly.  The
unrestricted claim is refuted by `c1_invariant_fails_after_double_collision`. -/
theorem c1_invariant_of_collision_safe_trace (v : Int) (ops : List Op)
    (hok : okTrace (initV v) ops = true) : Inv (run (initV v) ops) :=
  inv_run ⟨rfl, List.nodup_nil⟩ hok

/-- C1 witness: a concrete two-call trace (second call collides and is
registered under the fresh suffixed key) reaches a state satisfying the
invariant. -/
theorem c1_invariant_witness : Inv (run (initV 300) [opAddT, opAddTx]) :=
  c1_invariant_of_collision_safe_trace 300 [opAddT, opAddTx] (by decide)

/-- C1 counterexample: after three `add_channel(0, "T", ...)` calls from
the empty store, the suffixed key `T_0` sits in the master's index list
twice while the key set holds it once, so the claimed invariant fails on a
reachable state. -/
theorem c1_invariant_fails_after_double_collision :
    ¬ Inv (run (initV 300) [opAddT, opAddT, opAddT]) := by
  decide

/-- C2 (corrected): an `add_channel` call whose name collides registers the
new record under `name + "_" + str(groupId)` and leaves every other record
untouched, provided the suffixed key itself is fresh; without that proviso
the suffixed key is silently overwritten
(`c2_double_collision_overwrites`). -/
theorem c2_collision_registers_fresh_suffixed_key (st : Store) (g : Int)
    (n : String) (d : List Rat) (m : String) (mt : Int) (u ds : String)
    (cv : Option ConvSource) (hcol : dmem n st.channels = true)
    (hfresh : dmem (n ++ "_" ++ toString g) st.channels = false) :
    channelKeys (add_channel st g n d m mt u ds cv).1 =
        channelKeys st ++ [n ++ "_" ++ toString g] ∧
      dlookup (n ++ "_" ++ toString g)
          (add_channel st g n d m mt u ds cv).1.channels =
        some (addRecord st.MDFVersionNumber d m mt u ds cv) ∧
      ∀ k, k ≠ n ++ "_" ++ toString g →
        dlookup k (add_channel st g n d m mt u ds cv).1.channels =
          dlookup k st.channels := by
  have he : effName st g n = n ++ "_" ++ toString g := by
    simp [effName, hcol]
  refine ⟨?_, ?_, ?_⟩
  · rw [add_channel_eq]
    simp only [channelKeys]
    rw [he]
    exact dkeys_dinsert_of_not_mem _ (dmem_false_iff.1 hfresh)
  · rw [add_channel_eq]
    simp only [he, dlookup_dinsert_self]
  · intro k hk
    rw [add_channel_eq]
    simp only []
    rw [he]
    exact dlookup_dinsert_ne _ _ hk

/-- C2 witness: on a store already holding `T`, a second `add_channel` for
`T` appends exactly the fresh key `T_0` and leaves the record at `T`
unchanged. -/
theorem c2_collision_witness :
    channelKeys (add_channel (run (initV 300) [opAddT]) 0 "T" [] "Time" 1 "" "" none).1 =
        channelKeys (run (initV 300) [opAddT]) ++ ["T_0"] ∧
      dlookup "T" (add_channel (run (initV 300) [opAddT]) 0 "T" [] "Time" 1 "" "" none).1.channels =
        dlookup "T" (run (initV 300) [opAddT]).channels := by
  have h :=
    c2_collision_registers_fresh_suffixed_key (run (initV 300) [opAddT]) 0 "T"
      [] "Time" 1 "" "" none (by decide) (by decide)
  have hs : ("T" ++ "_" ++ toString (0 : Int) : String) = "T_0" := by decide
  refine ⟨?_, h.2.2 "T" (by decide)⟩
  have h1 := h.1
  rw [hs] at h1
  exact h1

/-- C2 counterexample: a third colliding `add_channel(0, "T", ...)` call
re-derives the key `T_0`, overwrites the record already stored there (the
looked-up record changes) and registers no new key. -/
theorem c2_double_collision_overwrites :
    dlookup "T_0" (run (initV 300) [opAddT, opAddT, opAddTx]).channels ≠
        dlookup "T_0" (run (initV 300) [opAddT, opAddT]).channels ∧
      channelKeys (run (initV 300) [opAddT, opAddT, opAddTx]) =
        channelKeys (run (initV 300) [opAddT, opAddT]) := by
  constructor
  · decide
  · decide

/-- C3 (confirmed): the record stored by `add_channel` carries
`masterType = 1` whenever the store's version is below 400, regardless of
the `master_type` argument, and carries the supplied argument otherwise. -/
theorem c3_master_type_version_forced (st : Store) (g : Int) (n : String)
    (d : List Rat) (m : String) (mt : Int) (u ds : String)
    (cv : Option ConvSource) :
    getChannelMasterType (add_channel st g n d m mt u ds cv).1
        (effName st g n) =
      some (Value.int (if st.MDFVersionNumber < 400 then 1 else mt)) := by
  rw [add_channel_eq]
  simp only [getChannelMasterType, getChannelField, dlookup_dinsert_self,
    dlookup_addRecord_masterType]

/-- C4 (confirmed): on a legacy-version store, supplying a type-0 (linear)
conversion whose parameters carry `P2 = 1.0` and `P1 = 0.0` leaves the
channel without a conversion field: `add_channel` raises nothing, the
stored record is exactly the base record, and `getChannelConversion`
returns the empty-string absent marker rather than a conversion value. -/
theorem c4_identity_conversion_elided (st : Store) (g : Int) (n : String)
    (d : List Rat) (m : String) (mt : Int) (u ds : String) (c : ConvSource)
    (ps : List (String × PVal)) (hv : st.MDFVersionNumber < 400)
    (ht : c.cc_type = 0) (hcc : c.conversion = some ps)
    (hp2 : dlookup "P2" ps = some (PVal.num 1))
    (hp1 : dlookup "P1" ps = some (PVal.num 0)) :
    (add_channel st g n d m mt u ds (some c)).2 = none ∧
      getChannel (add_channel st g n d m mt u ds (some c)).1
          (effName st g n) =
        some (baseRecord st.MDFVersionNumber d m mt u ds) ∧
      dlookup conversionField (baseRecord st.MDFVersionNumber d m mt u ds) =
        none ∧
      getChannelConversion (add_channel st g n d m mt u ds (some c)).1
          (effName st g n) =
        some (Value.str "") := by
  have hrec := addRecord_identity hv ht hcc hp2 hp1 d m mt u ds
  have herr := addErr_identity hv ht hcc hp2 hp1
  refine ⟨?_, ?_, dlookup_baseRecord_conversion _ d m mt u ds, ?_⟩
  · rw [add_channel_eq]
    simpa using herr
  · rw [add_channel_eq]
    simp [getChannel, hrec]
  · rw [add_channel_eq]
    simp only [getChannelConversion, getChannelField, dlookup_dinsert_self,
      hrec, dlookup_baseRecord_conversion]

/-- C4 witness: adding channel `C` to a fresh version-300 store with the
concrete identity conversion raises nothing and leaves
`getChannelConversion` at the empty marker. -/
theorem c4_identity_witness :
    (add_channel (initV 300) 0 "C" [] "Time" 1 "" "" (some convIdentity)).2 =
        none ∧
      getChannelConversion
          (add_channel (initV 300) 0 "C" [] "Time" 1 "" "" (some convIdentity)).1
          (effName (initV 300) 0 "C") =
        some (Value.str "") := by
  have h :=
    c4_identity_conversion_elided (initV 300) 0 "C" [] "Time" 1 "" ""
      convIdentity [("P2", PVal.num 1), ("P1", PVal.num 0)] (by decide)
      (by decide) (by decide) (by decide) (by decide)
  exact ⟨h.1, h.2.2.2⟩


/-- C5 (confirmed): on a name absent from the store every field-scoped
setter raises `KeyError` leaving the store unchanged, while every
field-scoped getter returns the `None` sentinel without failing; the
sentinel is distinct from the empty string, which is what getters return
for an existing record whose field is absent. -/
theorem c5_absent_name_contract (st : Store) (name : String)
    (h : dlookup name st.channels = none) :
    (∀ u, setChannelUnit st name u = (st, some Err.keyError)) ∧
      (∀ d, setChannelData st name d = (st, some Err.keyError)) ∧
      (∀ ds, setChannelDesc st name ds = (st, some Err.keyError)) ∧
      (∀ m, setChannelMaster st name m = (st, some Err.keyError)) ∧
      (∀ t, setChannelMasterType st name t = (st, some Err.keyError)) ∧
      (∀ c, setChannelConversion st name c = (st, some Err.keyError)) ∧
      (∀ a, setChannelAttachment st name a = (st, some Err.keyError)) ∧
      getChannelUnit st name = none ∧
      getChannelDesc st name = none ∧
      getChannelMaster st name = none ∧
      getChannelMasterType st name = none ∧
      getChannelConversion st name = none ∧
      (none : Option Value) ≠ some (Value.str "") ∧
      (∀ nm r f, dlookup nm st.channels = some r → dlookup f r = none →
        getChannelField st nm f = some (Value.str "")) := by
  have hset : ∀ (item : Value) (f : String),
      setChannel st name item f = (st, some Err.keyError) := by
    intro item f
    simp [setChannel, h]
  have hget : ∀ f : String, getChannelField st name f = none := by
    intro f
    simp [getChannelField, h]
  exact ⟨fun u => hset _ _, fun d => hset _ _, fun ds' => hset _ _,
    fun m => hset _ _, fun t => hset _ _, fun c => hset _ _,
    fun a => hset _ _, hget _, hget _, hget _, hget _, hget _, by simp,
    fun nm r f h1 h2 => by simp [getChannelField, h1, h2]⟩

/-- C5 witness: on the store holding only `T`, setting the unit of the
never-added name `nope` raises `KeyError` with the store unchanged, the
unit getter returns the sentinel, and the unit getter on `T` itself (whose
record has every base field present but no conversion) yields the empty
string for the absent conversion field. -/
theorem c5_absent_name_witness :
    setChannelUnit (run (initV 300) [opAddT]) "nope" "V" =
        (run (initV 300) [opAddT], some Err.keyError) ∧
      getChannelUnit (run (initV 300) [opAddT]) "nope" = none ∧
      getChannelField (run (initV 300) [opAddT]) "T" conversionField =
        some (Value.str "") := by
  have h := c5_absent_name_contract (run (initV 300) [opAddT]) "nope" (by decide)
  refine ⟨h.1 "V", h.2.2.2.2.2.2.2.1, ?_⟩
  exact h.2.2.2.2.2.2.2.2.2.2.2.2.2 "T"
    [(dataField, Value.data []), (unitField, Value.str ""),
      (descriptionField, Value.str ""), (masterField, Value.str "Time"),
      (masterTypeField, Value.int 1)] conversionField (by decide) (by decide)

/-- C6 (confirmed): removing a channel that is present, whose record's
master field names an index entry whose list holds the name, and whose name
occurs exactly once across the index (the documented consistency
precondition), returns the stored record, raises nothing, and leaves a
store where `getChannel` yields the absent sentinel and the name is in no
index list. -/
theorem c6_remove_roundtrip (st : Store) (cn : String) (r : Record)
    (m : String) (lst : List String)
    (h1 : dlookup cn st.channels = some r)
    (h2 : dlookup masterField r = some (Value.str m))
    (h3 : dlookup m st.masterChannelList = some lst)
    (h4 : cn ∈ lst)
    (h5 : (indexMembers st.masterChannelList).count cn = 1)
    (h6 : (channelKeys st).Nodup) :
    (remove_channel st cn).1 = some r ∧
      (remove_channel st cn).2.2 = none ∧
      getChannel (remove_channel st cn).2.1 cn = none ∧
      cn ∉ indexMembers (remove_channel st cn).2.1.masterChannelList := by
  have hgm : getChannelMaster st cn = some (Value.str m) := by
    simp [getChannelMaster, getChannelField, h1, h2]
  have hred : remove_channel st cn =
      (some r,
        { st with
            masterChannelList := dinsert m (lst.erase cn) st.masterChannelList
            channels := derase cn st.channels },
        none) := by
    simp [remove_channel, hgm, h3, h4, h1]
  rw [hred]
  refine ⟨rfl, rfl, ?_, ?_⟩
  · exact dlookup_derase_self_of_nodup h6
  · have hd := coe_members_dinsert (lst.erase cn) h3
    have hcount := congrArg (Multiset.count cn) hd
    simp only [Multiset.count_add, Multiset.coe_count] at hcount
    have herase : (lst.erase cn).count cn = lst.count cn - 1 := by
      have h := Multiset.count_erase_self cn (lst : Multiset String)
      rw [Multiset.coe_erase] at h
      simpa [Multiset.coe_count] using h
    have hpos : 0 < lst.count cn := List.count_pos_iff.2 h4
    have hzero :
        (indexMembers (dinsert m (lst.erase cn) st.masterChannelList)).count cn = 0 := by
      rw [h5, herase] at hcount
      omega
    show cn ∉ indexMembers (dinsert m (lst.erase cn) st.masterChannelList)
    intro hmem
    have hp := List.count_pos_iff.2 hmem
    omega

/-- C6 witness: removing `T` from the one-channel store round-trips: the
record comes back, no exception is raised, `getChannel` then yields the
sentinel and `T` is in no index list. -/
theorem c6_remove_roundtrip_witness :
    getChannel (remove_channel (run (initV 300) [opAddT]) "T").2.1 "T" =
        none ∧
      "T" ∉ indexMembers
        (remove_channel (run (initV 300) [opAddT]) "T").2.1.masterChannelList := by
  have h :=
    c6_remove_roundtrip (run (initV 300) [opAddT]) "T"
      [(dataField, Value.data []), (unitField, Value.str ""),
        (descriptionField, Value.str ""), (masterField, Value.str "Time"),
        (masterTypeField, Value.int 1)] "Time" ["T"] (by decide) (by decide)
      (by decide) (by decide) (by decide) (by decide)
  exact ⟨h.2.2.1, h.2.2.2⟩

/-- C7 (corrected): `copy` reproduces the source's file name, version
number, multi-processing flag, name-filtering flag and `convert_tables`
flag, and shares (in this by-value embedding: equals) the Master-Channel
Index, File Metadata and channel mapping, so the copy's key set equals the
source's; the tabular-rendering flag `_pandasframe`, however, is not
copied and is reset to `False` (`c7_copy_drops_pandasframe`). -/
theorem c7_copy_preserves_config_and_keys (st : Store) :
    (copy st).fileName = st.fileName ∧
      (copy st).MDFVersionNumber = st.MDFVersionNumber ∧
      (copy st).multiProc = st.multiProc ∧
      (copy st).filterChannelNames = st.filterChannelNames ∧
      (copy st).convert_tables = st.convert_tables ∧
      (copy st).masterChannelList = st.masterChannelList ∧
      (copy st).file_metadata = st.file_metadata ∧
      (copy st).channels = st.channels ∧
      channelKeys (copy st) = channelKeys st ∧
      (copy st).pandasframe = false := by
  refine ⟨rfl, rfl, rfl, rfl, rfl, rfl, rfl, rfl, rfl, rfl⟩

/-- C7 counterexample: on a store whose tabular-rendering flag is on,
`copy` yields a store whose flag is off, so not every scalar configuration
field is preserved. -/
theorem c7_copy_drops_pandasframe :
    (copy pandasStore).pandasframe ≠ pandasStore.pandasframe := by
  decide

/-- C8 (confirmed): `add_metadata` overwrites all seven metadata fields
wholesale with its arguments (each argument defaulting to the empty
string, so omitted fields reset to empty), never fails (it is a total
function), and is idempotent. -/
theorem c8_add_metadata_overwrites_idempotent (st : Store)
    (a o p s c d t : String) :
    (add_metadata st a o p s c d t).file_metadata =
        { author := a, organisation := o, project := p, subject := s
          comment := c, time := t, date := d } ∧
      add_metadata (add_metadata st a o p s c d t) a o p s c d t =
        add_metadata st a o p s c d t ∧
      (add_metadata st).file_metadata =
        { author := "", organisation := "", project := "", subject := ""
          comment := "", time := "", date := "" } ∧
      (add_metadata st a).file_metadata =
        { author := a, organisation := "", project := "", subject := ""
          comment := "", time := "", date := "" } := by
  refine ⟨rfl, rfl, rfl, rfl⟩

/-- C9 (corrected): the generic channel-field removal pops and returns the
field when record and field are present, and is a no-op returning the
absent result when the field is absent from an existing record; but when
the record itself is absent, `getChannel` returns `None` and the membership
test raises `TypeError` instead of no-opping
(`c9_remove_conversion_raises_on_missing_channel`). -/
theorem c9_remove_field_contract (st : Store) (cn f : String) :
    remove_channel_conversion st cn =
        remove_channel_field st cn conversionField ∧
      (dlookup cn st.channels = none →
        remove_channel_field st cn f = (none, st, some Err.typeError)) ∧
      (∀ r, dlookup cn st.channels = some r → dlookup f r = none →
        remove_channel_field st cn f = (none, st, none)) ∧
      (∀ r v, dlookup cn st.channels = some r → dlookup f r = some v →
        remove_channel_field st cn f = (some v, popRecField st cn f, none)) ∧
      (∀ r v, dlookup cn st.channels = some r → dlookup f r = some v →
        (dkeys r).Nodup →
        dlookup cn (popRecField st cn f).channels = some (derase f r) ∧
          dlookup f (derase f r) = none) := by
  refine ⟨rfl, fun h => ?_, fun r h1 h2 => ?_, fun r v h1 h2 => ?_,
    fun r v h1 h2 h3 => ⟨?_, ?_⟩⟩
  · simp [remove_channel_field, getChannel, h]
  · simp [remove_channel_field, getChannel, h1, h2]
  · simp [remove_channel_field, getChannel, h1, h2]
  · simp [popRecField, dlookup_dmodify_self, h1]
  · exact dlookup_derase_self_of_nodup h3

/-- C9 counterexample: calling `remove_channel_conversion` on a name absent
from the store does not return the harmless absent result: it raises
(`TypeError`, from the Python membership test on `None`). -/
theorem c9_remove_conversion_raises_on_missing_channel :
    ¬ (remove_channel_conversion (initV 300) "X").2.2 = none := by
  decide

/-- C9 witness: popping the conversion field of the one-channel store that
carries one returns the stored conversion value with no error. -/
theorem c9_remove_field_witness :
    remove_channel_field convOnlyStore "C" conversionField =
      (some (Value.conv { type_ := 1, parameters := [] }),
        popRecField convOnlyStore "C" conversionField, none) :=
  (c9_remove_field_contract convOnlyStore "C" conversionField).2.2.2.1
    [(conversionField, Value.conv { type_ := 1, parameters := [] })]
    (Value.conv { type_ := 1, parameters := [] }) (by decide) (by decide)

/-- C10 (corrected): on a legacy store a type-0 conversion always looks up
`P2` (failing with `KeyError` when absent, including when no parameter
mapping was supplied at all), looks up `P1` only when `P2 == 1.0` (failing
with `KeyError` when `P1` is then absent), and is total whenever both `P1`
and `P2` are present; but `P1` is not read unconditionally: with `P2`
present and different from `1.0`, the call succeeds without `P1`
(`c10_type0_without_p1_succeeds`). -/
theorem c10_legacy_linear_conversion_totality (st : Store) (g : Int)
    (n : String) (d : List Rat) (m : String) (mt : Int) (u ds : String)
    (c : ConvSource) (hv : st.MDFVersionNumber < 400) (ht : c.cc_type = 0) :
    (dlookup "P2" (legacyParams c) = none →
        (add_channel st g n d m mt u ds (some c)).2 = some Err.keyError) ∧
      (∀ p2, dlookup "P2" (legacyParams c) = some p2 → pvalEq p2 1 = false →
        (add_channel st g n d m mt u ds (some c)).2 = none) ∧
      (∀ p2, dlookup "P2" (legacyParams c) = some p2 → pvalEq p2 1 = true →
        dlookup "P1" (legacyParams c) = none →
        (add_channel st g n d m mt u ds (some c)).2 = some Err.keyError) ∧
      (∀ p2 p1, dlookup "P2" (legacyParams c) = some p2 →
        dlookup "P1" (legacyParams c) = some p1 →
        (add_channel st g n d m mt u ds (some c)).2 = none) := by
  have herr : (add_channel st g n d m mt u ds (some c)).2 =
      addErr st.MDFVersionNumber (some c) := by
    rw [add_channel_eq]
  simp only [herr]
  refine ⟨fun h => ?_, fun p2 hp2 hne => ?_, fun p2 hp2 heq hp1 => ?_,
    fun p2 p1 hp2 hp1 => ?_⟩
  · simp [addErr, hv, ht, h]
  · simp [addErr, hv, ht, hp2, hne]
  · simp [addErr, hv, ht, hp2, heq, hp1]
  · by_cases hq : pvalEq p2 1 <;> simp [addErr, hv, ht, hp2, hp1, hq]

/-- C10 counterexample: a type-0 conversion carrying `P2 = 2.0` and no `P1`
at all makes `add_channel` succeed on a version-300 store, so totality does
not require `P1` and `P1` is not read unconditionally. -/
theorem c10_type0_without_p1_succeeds :
    (add_channel (initV 300) 0 "C" [] "Time" 1 "" "" (some convNoP1)).2 =
      none := by
  decide

/-- C10 witness: with `P2 == 1.0` present and `P1` absent, the legacy
identity check raises `KeyError`. -/
theorem c10_totality_witness :
    (add_channel (initV 300) 0 "C" [] "Time" 1 "" "" (some convP2OneNoP1)).2 =
      some Err.keyError :=
  (c10_legacy_linear_conversion_totality (initV 300) 0 "C" [] "Time" 1 "" ""
      convP2OneNoP1 (by decide) (by decide)).2.2.1 (PVal.num 1) (by decide)
    (by decide) (by decide)

end Mdf
